import Mathlib

/-!
Shallow embedding of the `touch_develop` glue layer
(`microbit-touchdevelop/MicroBitTouchDevelop.h`).

The embedding covers the parts the verification targets:

* `registerWithDal` (the handler registry on top of the message bus),
  modelled as a state transformer that also emits the list of observable
  effects (bus `ignore`/`listen` calls, adapter allocation and
  deallocation, table stores) in the order the C++ code performs them;
* the `collection` namespace (`count`, `add`, `in_range`, `at`,
  `remove_at`, `set_at`, `index_of`, `remove`), modelled over
  `Option (List T)` — `none` is an uninitialized `ManagedType` handle,
  `some l` a valid collection holding the sequence `l`; panics become
  `Except.error` values carrying the `TdError` code;
* `action1.is_invalid` over an optional closure.
-/

namespace touch_develop

/-- The error codes of `enum TdError`. -/
inductive TdError where
  | TD_UNINITIALIZED_OBJECT_TYPE
  | TD_OUT_OF_BOUNDS
  | TD_BAD_USAGE
  | TD_CONTRACT_ERROR
deriving DecidableEq, Repr

/-- The two closure shapes accepted by `registerWithDal` / `DalAdapter`:
`std::function<void()>` and `std::function<void(int)>`.  Only the shape
matters for the registry's behaviour, not the closure's body. -/
inductive Handler where
  | noArg
  | intArg
deriving DecidableEq, Repr

/-- Observable effects of `registerWithDal`, in program order:
`uBit.MessageBus.ignore`, `new DalAdapter`, `uBit.MessageBus.listen`,
storing the `unique_ptr` in `handlersMap`, and the `delete` of the old
adapter performed by the `unique_ptr` move assignment.  Adapters are
named by allocation number. -/
inductive Effect where
  | busIgnore (id event : Int) (adapter : Nat)
  | allocAdapter (adapter : Nat)
  | busListen (id event : Int) (adapter : Nat)
  | storeAdapter (id event : Int) (adapter : Nat)
  | freeAdapter (adapter : Nat)
deriving DecidableEq, Repr

/-- The state of the registry: the `handlersMap` table (key
`(id, event)`, value the adapter currently stored for that key) plus an
allocation counter naming the next `new DalAdapter`. -/
structure RegState where
  handlersMap : List ((Int × Int) × Nat)
  nextAdapter : Nat
deriving DecidableEq, Repr

/-- Models `handlersMap.find({id, event})`. -/
def mapFind (m : List ((Int × Int) × Nat)) (k : Int × Int) : Option Nat :=
  match m with
  | [] => none
  | (k2, v) :: rest => if k2 = k then some v else mapFind rest k

/-- Models the map assignment `handlersMap[{id, event}] = ...` (insert-or-replace). -/
def mapStore (m : List ((Int × Int) × Nat)) (k : Int × Int) (v : Nat) :
    List ((Int × Int) × Nat) :=
  match m with
  | [] => [(k, v)]
  | (k2, v2) :: rest =>
      if k2 = k then (k, v) :: rest else (k2, v2) :: mapStore rest k v

/-- Models `registerWithDal(id, event, f)`.  Here `f = none` models an empty
`std::function` (the `f != NULL` test fails).  Returns the new state and
the effects in the order the C++ body performs them: the conditional
`ignore` of the old adapter, the `new DalAdapter(f)`, the `listen` for
the new adapter, and the map assignment
`handlersMap[{id,event}] = unique_ptr<DalAdapter>(new_adapter)`, whose
`unique_ptr` move assignment stores the new pointer and then deletes the
previously held adapter. -/
def registerWithDal (id event : Int) (f : Option Handler) (st : RegState) :
    RegState × List Effect :=
  match f with
  | none => (st, [])
  | some _ =>
    let old := mapFind st.handlersMap (id, event)
    let ignoreTrace :=
      match old with
      | some a => [Effect.busIgnore id event a]
      | none => []
    let na := st.nextAdapter
    let freeTrace :=
      match old with
      | some a => [Effect.freeAdapter a]
      | none => []
    ({ handlersMap := mapStore st.handlersMap (id, event) na,
       nextAdapter := na + 1 },
     ignoreTrace ++
       [Effect.allocAdapter na, Effect.busListen id event na,
        Effect.storeAdapter id event na] ++ freeTrace)

/-- The registry before any registration: empty `handlersMap`. -/
def initState : RegState := { handlersMap := [], nextAdapter := 0 }

/-- The set of `(key, adapter)` listeners the bus holds after a trace of
effects: `listen` adds the pair, `ignore` removes exactly that pair
(the bus contract: no further delivery to that adapter for that key). -/
def busState (tr : List Effect) : List ((Int × Int) × Nat) :=
  tr.foldl
    (fun acc e =>
      match e with
      | Effect.busListen i ev a => acc ++ [((i, ev), a)]
      | Effect.busIgnore i ev a => acc.filter (fun p => decide (p ≠ ((i, ev), a)))
      | _ => acc)
    []

/-- The adapters the bus would deliver key `(id, event)` to after a
trace. -/
def busListenersFor (id event : Int) (tr : List Effect) : List Nat :=
  (busState tr).filterMap (fun p => if p.1 = (id, event) then some p.2 else none)

/-- Means `e1` occurs strictly before `e2` in the trace `tr`. -/
def occursBefore (tr : List Effect) (e1 e2 : Effect) : Prop :=
  ∃ i j : Nat, i < j ∧ tr.get? i = some e1 ∧ tr.get? j = some e2

/-- Models `Collection_of<T> = ManagedType<vector<T>>`: `none` is an
uninitialized handle (`c.get() == NULL`), `some l` a valid handle whose
vector holds the sequence `l`. -/
abbrev Collection_of (T : Type) : Type := Option (List T)

/-- Models `Action1<T> = std::function<void(T)>`: `none` is an empty
`std::function` (no callable target), `some f` one holding the target
`f`. -/
abbrev Action1 (T : Type) : Type := Option (T → Unit)

namespace action1

/-- Models `action1::is_invalid`: `if (a) return true; else return false;`. -/
def is_invalid {T : Type} (a : Action1 T) : Bool :=
  match a with
  | some _ => true
  | none => false

/-- Models `action1::run`: `if (a) a(arg);`. -/
def run {T : Type} (a : Action1 T) (arg : T) : Unit :=
  match a with
  | some f => f arg
  | none => ()

end action1

namespace collection

/-- Models `collection::count`: the vector's size, or an
`uBit.panic(TD_UNINITIALIZED_OBJECT_TYPE)` on a NULL handle. -/
def count {T : Type} (c : Collection_of T) : Except TdError Int :=
  match c with
  | some l => Except.ok (l.length : Int)
  | none => Except.error TdError.TD_UNINITIALIZED_OBJECT_TYPE

/-- Models `collection::add`: `c->push_back(x)`, or a panic on a NULL handle. -/
def add {T : Type} (c : Collection_of T) (x : T) :
    Except TdError (Collection_of T) :=
  match c with
  | some l => Except.ok (some (l ++ [x]))
  | none => Except.error TdError.TD_UNINITIALIZED_OBJECT_TYPE

/-- Models `collection::in_range`: `0 <= x && x < c->size()` on a valid handle,
a panic on a NULL handle (the validity check runs before the range
test). -/
def in_range {T : Type} (c : Collection_of T) (x : Int) :
    Except TdError Bool :=
  match c with
  | some l => Except.ok (decide (0 ≤ x ∧ x < (l.length : Int)))
  | none => Except.error TdError.TD_UNINITIALIZED_OBJECT_TYPE

/-- Models `collection::at`: `if (in_range(c, x)) return c->at(x); else
uBit.panic(TD_OUT_OF_BOUNDS);` — a panic raised inside `in_range`
propagates. -/
def «at» {T : Type} [Inhabited T] (c : Collection_of T) (x : Int) :
    Except TdError T :=
  match in_range c x with
  | Except.error e => Except.error e
  | Except.ok true => Except.ok ((c.getD []).getD x.toNat default)
  | Except.ok false => Except.error TdError.TD_OUT_OF_BOUNDS

/-- Models `collection::remove_at`: `if (!in_range(c, x)) return;
c->erase(c->begin()+x);` — the result is the updated collection. -/
def remove_at {T : Type} (c : Collection_of T) (x : Int) :
    Except TdError (Collection_of T) :=
  match in_range c x with
  | Except.error e => Except.error e
  | Except.ok false => Except.ok c
  | Except.ok true => Except.ok (some ((c.getD []).eraseIdx x.toNat))

/-- Models `collection::set_at`: `if (!in_range(c, x)) return;
c->at(x) = y;`. -/
def set_at {T : Type} (c : Collection_of T) (x : Int) (y : T) :
    Except TdError (Collection_of T) :=
  match in_range c x with
  | Except.error e => Except.error e
  | Except.ok false => Except.ok c
  | Except.ok true => Except.ok (some ((c.getD []).set x.toNat y))

/-- The loop of `collection::index_of`:
`for (int i = start; i < c->size(); ++i) if (c->at(i) == x) index = i;`
with accumulator `idx` (initially `-1`).  The first argument is
structural fuel bounding the number of remaining iterations; the loop is
entered with fuel `l.length`, which always suffices. -/
def indexOfLoop {T : Type} [DecidableEq T] [Inhabited T]
    (l : List T) (x : T) : Nat → Nat → Int → Int
  | 0, _, idx => idx
  | fuel + 1, i, idx =>
    if i < l.length then
      indexOfLoop l x fuel (i + 1)
        (if l.getD i default = x then (i : Int) else idx)
    else idx

/-- Models `collection::index_of`: `-1` when `start` is out of range (a NULL
handle panics inside `in_range`), otherwise the loop above. -/
def index_of {T : Type} [DecidableEq T] [Inhabited T]
    (c : Collection_of T) (x : T) (start : Int) : Except TdError Int :=
  match in_range c start with
  | Except.error e => Except.error e
  | Except.ok false => Except.ok (-1)
  | Except.ok true =>
      Except.ok (indexOfLoop (c.getD []) x (c.getD []).length start.toNat (-1))

/-- Models `collection::remove`: `remove_at(c, index_of(c, x, 0))` — the
argument `index_of(c, x, 0)` is evaluated first, so its panic (on a NULL
handle) propagates. -/
def remove {T : Type} [DecidableEq T] [Inhabited T]
    (c : Collection_of T) (x : T) : Except TdError (Collection_of T) :=
  match index_of c x 0 with
  | Except.error e => Except.error e
  | Except.ok i => remove_at c i

end collection

/-!  Theorems. -/

/-- Loop invariant of `indexOfLoop`: with enough fuel, starting at `i`
with accumulator `idx`, the loop either finds no match in `[i, length)`
and returns `idx`, or returns the highest matching index in
`[i, length)`. -/
theorem indexOfLoop_spec {T : Type} [DecidableEq T] [Inhabited T]
    (l : List T) (x : T) :
    ∀ (fuel i : Nat) (idx : Int), l.length ≤ i + fuel →
      ((∀ j : Nat, i ≤ j → j < l.length → l.getD j default ≠ x) ∧
        collection.indexOfLoop l x fuel i idx = idx) ∨
      (∃ r : Nat, i ≤ r ∧ r < l.length ∧ l.getD r default = x ∧
        (∀ j : Nat, r < j → j < l.length → l.getD j default ≠ x) ∧
        collection.indexOfLoop l x fuel i idx = (r : Int)) := by
  intro fuel
  induction fuel with
  | zero =>
    intro i idx hle
    left
    exact ⟨fun j hij hjl => absurd (Nat.lt_of_le_of_lt hij hjl) (by omega), rfl⟩
  | succ n ih =>
    intro i idx hle
    by_cases hi : i < l.length
    · rw [collection.indexOfLoop, if_pos hi]
      by_cases hx : l.getD i default = x
      · rw [if_pos hx]
        rcases ih (i + 1) (i : Int) (by omega) with ⟨hno, heq⟩ |
          ⟨r, hir, hrl, hrx, hafter, heq⟩
        · right
          refine ⟨i, Nat.le_refl i, hi, hx, ?_, heq⟩
          exact fun j hj hjl => hno j (by omega) hjl
        · right
          exact ⟨r, by omega, hrl, hrx, hafter, heq⟩
      · rw [if_neg hx]
        rcases ih (i + 1) idx (by omega) with ⟨hno, heq⟩ |
          ⟨r, hir, hrl, hrx, hafter, heq⟩
        · left
          refine ⟨?_, heq⟩
          intro j hij hjl
          rcases Nat.eq_or_lt_of_le hij with hji | hji
          · exact hji ▸ hx
          · exact hno j hji hjl
        · right
          exact ⟨r, by omega, hrl, hrx, hafter, heq⟩
    · rw [collection.indexOfLoop, if_neg hi]
      left
      exact ⟨fun j hij hjl => absurd (Nat.lt_of_le_of_lt hij hjl)
        (by omega), rfl⟩

/-- C4: `at` on an uninitialized handle panics `UninitializedObject`;
on a valid collection with `x` outside `[0, count)` it panics
`OutOfBounds`; otherwise it returns the element stored at index `x` —
in particular the element just appended by `add` and the element just
written by `set_at`. -/
theorem C4_at_spec (T : Type) [Inhabited T] (l : List T) (x : Int) :
    (collection.«at» (none : Collection_of T) x =
      Except.error TdError.TD_UNINITIALIZED_OBJECT_TYPE) ∧
    (¬(0 ≤ x ∧ x < (l.length : Int)) →
      collection.«at» (some l : Collection_of T) x =
        Except.error TdError.TD_OUT_OF_BOUNDS) ∧
    ((0 ≤ x ∧ x < (l.length : Int)) →
      collection.«at» (some l : Collection_of T) x =
        Except.ok (l.getD x.toNat default)) ∧
    (∀ y : T,
      collection.add (some l : Collection_of T) y =
        Except.ok (some (l ++ [y])) ∧
      collection.«at» (some (l ++ [y]) : Collection_of T) (l.length : Int) =
        Except.ok y) ∧
    (∀ y : T, (0 ≤ x ∧ x < (l.length : Int)) →
      collection.set_at (some l : Collection_of T) x y =
        Except.ok (some (l.set x.toNat y)) ∧
      collection.«at» (some (l.set x.toNat y) : Collection_of T) x =
        Except.ok y) := by
  refine ⟨rfl, ?_, ?_, ?_, ?_⟩
  · intro h
    simp [collection.«at», collection.in_range, decide_eq_false h]
  · intro h
    simp [collection.«at», collection.in_range, decide_eq_true h]
  · intro y
    refine ⟨rfl, ?_⟩
    have hr : (0 : Int) ≤ (l.length : Int) ∧
        (l.length : Int) < ((l ++ [y]).length : Int) := by
      simp
    simp [collection.«at», collection.in_range, decide_eq_true hr,
      List.getD_eq_getElem?_getD, List.getElem?_concat_length]
  · intro y h
    have hlt : x.toNat < l.length := by omega
    refine ⟨by simp [collection.set_at, collection.in_range,
      decide_eq_true h], ?_⟩
    simp [collection.«at», collection.in_range, decide_eq_true h.1,
      decide_eq_true h.2, List.getD_eq_getElem?_getD,
      List.getElem?_set_self hlt]

/-- Witness for C4: reads in range, after `add`, and after `set_at`. -/
theorem C4_at_spec_witness :
    collection.«at» (some [10, 20, 30] : Collection_of Int) 1 =
      Except.ok 20 :=
  (C4_at_spec Int [10, 20, 30] 1).2.2.1 (by decide)

/-- C5: `index_of` returns `-1` when `start` is outside `[0, count)`;
otherwise it returns the highest index `r` with `start ≤ r < count`
whose element equals `x` (the last match, not the first), or `-1` when
no index in `[start, count)` matches. -/
theorem C5_index_of_spec (T : Type) [DecidableEq T] [Inhabited T]
    (l : List T) (x : T) (start : Int) :
    (¬(0 ≤ start ∧ start < (l.length : Int)) →
      collection.index_of (some l : Collection_of T) x start =
        Except.ok (-1)) ∧
    ((0 ≤ start ∧ start < (l.length : Int)) →
      (∀ j : Nat, start.toNat ≤ j → j < l.length → l.getD j default ≠ x) →
      collection.index_of (some l : Collection_of T) x start =
        Except.ok (-1)) ∧
    ((0 ≤ start ∧ start < (l.length : Int)) →
      ∀ r : Nat, start.toNat ≤ r → r < l.length → l.getD r default = x →
        (∀ j : Nat, r < j → j < l.length → l.getD j default ≠ x) →
        collection.index_of (some l : Collection_of T) x start =
          Except.ok (r : Int)) := by
  refine ⟨?_, ?_, ?_⟩
  · intro h
    simp [collection.index_of, collection.in_range, decide_eq_false h]
  · intro h hno
    rcases indexOfLoop_spec l x l.length start.toNat (-1) (by omega) with
      ⟨_, heq⟩ | ⟨r, hir, hrl, hrx, _, _⟩
    · simp [collection.index_of, collection.in_range, decide_eq_true h, heq]
    · exact absurd hrx (hno r hir hrl)
  · intro h r hsr hrl hrx hafter
    rcases indexOfLoop_spec l x l.length start.toNat (-1) (by omega) with
      ⟨hno, _⟩ | ⟨r2, hir2, hrl2, hrx2, hafter2, heq2⟩
    · exact absurd hrx (hno r hsr hrl)
    · have hrr : r2 = r := by
        rcases Nat.lt_trichotomy r2 r with hlt | heqr | hgt
        · exact absurd hrx (hafter2 r hlt hrl)
        · exact heqr
        · exact absurd hrx2 (hafter r2 hgt hrl2)
      subst hrr
      simp [collection.index_of, collection.in_range, decide_eq_true h, heq2]

/-- Witness for C5 at `[5, 7, 5]`, `x = 5`, `start = 0`: the result is
the last match, index 2, not the first match at index 0. -/
theorem C5_index_of_spec_witness :
    collection.index_of (some [5, 7, 5] : Collection_of Int) 5 0 =
      Except.ok 2 :=
  (C5_index_of_spec Int [5, 7, 5] 5 0).2.2 (by decide) 2 (by decide)
    (by decide) (by decide) (fun j h1 h2 => by
    simp only [List.length_cons, List.length_nil] at h2
    omega)

/-- C6: `remove_at` with an out-of-range index on a valid collection
returns it unchanged and raises no signal; with an in-range index the
length drops by exactly one, indices below `x` are untouched, and every
element above `x` shifts down one position. -/
theorem C6_remove_at_spec (T : Type) [Inhabited T] (l : List T) (x : Int) :
    (¬(0 ≤ x ∧ x < (l.length : Int)) →
      collection.remove_at (some l : Collection_of T) x =
        Except.ok (some l)) ∧
    ((0 ≤ x ∧ x < (l.length : Int)) →
      collection.remove_at (some l : Collection_of T) x =
        Except.ok (some (l.eraseIdx x.toNat)) ∧
      (l.eraseIdx x.toNat).length = l.length - 1 ∧
      (∀ j : Nat, j < x.toNat →
        (l.eraseIdx x.toNat).getD j default = l.getD j default) ∧
      (∀ j : Nat, x.toNat ≤ j → j + 1 < l.length →
        (l.eraseIdx x.toNat).getD j default = l.getD (j + 1) default)) := by
  constructor
  · intro h
    simp [collection.remove_at, collection.in_range, decide_eq_false h]
  · intro h
    have hlt : x.toNat < l.length := by omega
    refine ⟨by simp [collection.remove_at, collection.in_range,
        decide_eq_true h], List.length_eraseIdx_of_lt hlt, ?_, ?_⟩
    · intro j hj
      simp [List.getD_eq_getElem?_getD,
        List.getElem?_eraseIdx_of_lt l x.toNat j hj]
    · intro j hij hj1
      simp [List.getD_eq_getElem?_getD,
        List.getElem?_eraseIdx_of_ge l x.toNat j hij]

/-- Witness for C6: removing index 1 of `[10, 20, 30]` gives
`[10, 30]`. -/
theorem C6_remove_at_spec_witness :
    collection.remove_at (some [10, 20, 30] : Collection_of Int) 1 =
      Except.ok (some [10, 30]) :=
  ((C6_remove_at_spec Int [10, 20, 30] 1).2 (by decide)).1

/-- C7: `remove` on a valid collection removes exactly the element at
the index `index_of(c, x, 0)` reports when that index exists, and
leaves the collection unchanged when `x` is absent (where `index_of`
reports `-1`). -/
theorem C7_remove_spec (T : Type) [DecidableEq T] [Inhabited T]
    (l : List T) (x : T) :
    (∀ r : Nat,
      collection.index_of (some l : Collection_of T) x 0 =
        Except.ok (r : Int) →
      collection.remove (some l : Collection_of T) x =
        Except.ok (some (l.eraseIdx r))) ∧
    (x ∉ l →
      collection.index_of (some l : Collection_of T) x 0 =
        Except.ok (-1) ∧
      collection.remove (some l : Collection_of T) x =
        Except.ok (some l)) := by
  constructor
  · intro r h
    by_cases hlen : 0 < l.length
    · have hval : collection.index_of (some l : Collection_of T) x 0 =
          Except.ok (collection.indexOfLoop l x l.length 0 (-1)) := by
        simp [collection.index_of, collection.in_range, hlen]
      rcases indexOfLoop_spec l x l.length 0 (-1) (by omega) with
        ⟨_, heq⟩ | ⟨r2, _, hrl2, _, _, heq2⟩
      · rw [hval, heq] at h
        simp only [Except.ok.injEq] at h
        omega
      · rw [hval, heq2] at h
        simp only [Except.ok.injEq] at h
        have hrr : r2 = r := by omega
        subst hrr
        simp [collection.remove, hval, heq2, collection.remove_at,
          collection.in_range, hrl2]
    · have hval : collection.index_of (some l : Collection_of T) x 0 =
          Except.ok (-1) := by
        simp [collection.index_of, collection.in_range, hlen]
      rw [hval] at h
      simp only [Except.ok.injEq] at h
      omega
  · intro hx
    by_cases hlen : 0 < l.length
    · rcases indexOfLoop_spec l x l.length 0 (-1) (by omega) with
        ⟨_, heq⟩ | ⟨r2, _, hrl2, hrx2, _, _⟩
      · have hval : collection.index_of (some l : Collection_of T) x 0 =
            Except.ok (-1) := by
          simp [collection.index_of, collection.in_range, hlen, heq]
        refine ⟨hval, ?_⟩
        simp [collection.remove, hval, collection.remove_at,
          collection.in_range]
      · exact absurd (List.getD_eq_getElem l default hrl2 ▸
          List.getElem_mem hrl2) (hrx2 ▸ hx)
    · have hval : collection.index_of (some l : Collection_of T) x 0 =
          Except.ok (-1) := by
        simp [collection.index_of, collection.in_range, hlen]
      refine ⟨hval, ?_⟩
      simp [collection.remove, hval, collection.remove_at,
        collection.in_range]

/-- Witness for C7: removing 5 from `[5, 7, 5]` erases the index
`index_of` reports (the last match, index 2), giving `[5, 7]`. -/
theorem C7_remove_spec_witness :
    collection.remove (some [5, 7, 5] : Collection_of Int) 5 =
      Except.ok (some ([5, 7, 5].eraseIdx 2)) :=
  (C7_remove_spec Int [5, 7, 5] 5).1 2 (by rfl)

/-- C1: registering a non-empty handler for the key `(id, event)` and
then a second non-empty handler for the same key leaves exactly one
adapter — the second one (allocation number 1) — registered with the bus
for that key; the bus `ignore` of the first adapter (allocation number
0) occurs before the bus `listen` of the second, and the first adapter's
storage is freed only after that `ignore`. -/
theorem C1_reregistration_single_adapter (id event : Int) (h1 h2 : Handler) :
    busListenersFor id event
      ((registerWithDal id event (some h1) initState).2 ++
        (registerWithDal id event (some h2)
          (registerWithDal id event (some h1) initState).1).2) = [1] ∧
    occursBefore
      ((registerWithDal id event (some h1) initState).2 ++
        (registerWithDal id event (some h2)
          (registerWithDal id event (some h1) initState).1).2)
      (Effect.busIgnore id event 0) (Effect.busListen id event 1) ∧
    occursBefore
      ((registerWithDal id event (some h1) initState).2 ++
        (registerWithDal id event (some h2)
          (registerWithDal id event (some h1) initState).1).2)
      (Effect.busIgnore id event 0) (Effect.freeAdapter 0) := by
  have htr : (registerWithDal id event (some h1) initState).2 ++
      (registerWithDal id event (some h2)
        (registerWithDal id event (some h1) initState).1).2 =
      [Effect.allocAdapter 0, Effect.busListen id event 0,
       Effect.storeAdapter id event 0, Effect.busIgnore id event 0,
       Effect.allocAdapter 1, Effect.busListen id event 1,
       Effect.storeAdapter id event 1, Effect.freeAdapter 0] := by
    simp [registerWithDal, mapFind, mapStore, initState]
  rw [htr]
  refine ⟨?_, ⟨3, 5, by omega, rfl, rfl⟩, ⟨3, 7, by omega, rfl, rfl⟩⟩
  simp [busListenersFor, busState]

/-- C2 counterexample: re-registering for key `(1, 2)` over an existing
adapter 0 does NOT produce the claimed sequence
ignore-old, free-old, construct-new, listen-new, store-new: the code
frees the old adapter's storage during the final map assignment, after
the `listen` of the new adapter. -/
theorem C2_counterexample_free_is_not_second :
    (registerWithDal 1 2 (some Handler.noArg)
        { handlersMap := [((1, 2), 0)], nextAdapter := 1 }).2 ≠
      [Effect.busIgnore 1 2 0, Effect.freeAdapter 0, Effect.allocAdapter 1,
       Effect.busListen 1 2 1, Effect.storeAdapter 1 2 1] := by
  decide

/-- C2 (amended): when `registerWithDal` is called with a non-empty
handler for a key that already has an entry, the sequence of effects is
exactly: detach the old adapter from the bus, then construct the new
adapter, then attach the new adapter to the bus, then store the new
adapter in the table, then free the old adapter's storage. -/
theorem C2_amended_effect_order (id event : Int) (h : Handler)
    (st : RegState) (a : Nat)
    (hfind : mapFind st.handlersMap (id, event) = some a) :
    (registerWithDal id event (some h) st).2 =
      [Effect.busIgnore id event a, Effect.allocAdapter st.nextAdapter,
       Effect.busListen id event st.nextAdapter,
       Effect.storeAdapter id event st.nextAdapter,
       Effect.freeAdapter a] := by
  simp [registerWithDal, hfind]

/-- Witness for C2 (amended) at key `(1, 2)` with old adapter 0. -/
theorem C2_amended_effect_order_witness :
    (registerWithDal 1 2 (some Handler.noArg)
        { handlersMap := [((1, 2), 0)], nextAdapter := 1 }).2 =
      [Effect.busIgnore 1 2 0, Effect.allocAdapter 1, Effect.busListen 1 2 1,
       Effect.storeAdapter 1 2 1, Effect.freeAdapter 0] :=
  C2_amended_effect_order 1 2 Handler.noArg
    { handlersMap := [((1, 2), 0)], nextAdapter := 1 } 0 (by decide)

/-- C3: registering an empty/absent handler is a complete no-op for
every key and every prior state: the state (in particular the
`handlersMap` entry of every key) is unchanged, no effect — no bus
`listen` or `ignore`, no allocation, no free — is emitted, and no error
is possible (the operation is total). -/
theorem C3_empty_handler_noop (id event : Int) (st : RegState) :
    registerWithDal id event none st = (st, []) ∧
    ∀ id2 event2 : Int,
      mapFind (registerWithDal id event none st).1.handlersMap (id2, event2) =
        mapFind st.handlersMap (id2, event2) :=
  ⟨rfl, fun _ _ => rfl⟩

/-- C8: on a valid collection `in_range` returns `true` exactly when
`0 ≤ x < count`; on an uninitialized handle it panics with
`UninitializedObject` for every index `x`, in-range or not — the
validity check precedes any range test. -/
theorem C8_in_range_spec (T : Type) (l : List T) (x : Int) :
    (collection.in_range (some l : Collection_of T) x = Except.ok true ↔
      (0 ≤ x ∧ x < (l.length : Int))) ∧
    collection.in_range (none : Collection_of T) x =
      Except.error TdError.TD_UNINITIALIZED_OBJECT_TYPE := by
  constructor
  · simp [collection.in_range]
  · rfl

/-- Witness for C8: index 0 is in range for the one-element collection. -/
theorem C8_in_range_spec_witness :
    collection.in_range (some [4] : Collection_of Int) 0 = Except.ok true :=
  (C8_in_range_spec Int [4] 0).1.mpr (by decide)

/-- C9: `action1::is_invalid` returns `true` exactly when the action
holds a callable target (is non-empty) and `false` when it is empty —
the opposite polarity of what the name suggests. -/
theorem C9_is_invalid_polarity (T : Type) (a : Action1 T) :
    action1.is_invalid a = true ↔ a.isSome = true := by
  cases a <;> simp [action1.is_invalid]

/-- Witness for C9: a non-empty action is reported `true` by
`is_invalid`. -/
theorem C9_is_invalid_polarity_witness :
    action1.is_invalid (some (fun _ => ()) : Action1 Int) = true :=
  (C9_is_invalid_polarity Int (some (fun _ => ()))).mpr rfl

/-- C10: on an uninitialized handle, `remove_at` and `set_at` panic with
`UninitializedObject` for every index `x` (the panic comes from the
`in_range` call); the permissive no-op policy applies only to
out-of-range indices on a valid collection. -/
theorem C10_uninitialized_mutators_panic (T : Type) (x : Int) (y : T) :
    collection.remove_at (none : Collection_of T) x =
      Except.error TdError.TD_UNINITIALIZED_OBJECT_TYPE ∧
    collection.set_at (none : Collection_of T) x y =
      Except.error TdError.TD_UNINITIALIZED_OBJECT_TYPE :=
  ⟨rfl, rfl⟩

end touch_develop
